import Mathlib

/-!
Verification development for the QR stamp-issuance core of the go-out
loyalty backend. The signed token codec is embedded from
src/utils/auth.ts (generateQrToken, verifyToken, isTokenExpired) on top
of a symbolic model of the jsonwebtoken library; request validation is
embedded from src/utils/validation.ts; the persistent data model is
embedded from the prisma schema. The redemption ledger and the status
query (StampController) are not among the provided sources and are
modelled from the specification, as marked on their definitions.
Machine time is a natural number of milliseconds, as produced by
Date.now in the source.
-/

namespace GoOut

/-- Process environment: the JWT signing secret as read from
process.env.JWT_SECRET, absent when the variable is not set. -/
structure ProcessEnv where
  jwtSecret : Option String
deriving DecidableEq

/-- Flattened JWT payload of a stamp-QR token as built by generateQrToken
in src/utils/auth.ts (businessId, stampsValue, qrId, type, issuedAt,
expiresAt in milliseconds) together with the registered claims that
jwt.sign adds: iat and exp in whole seconds, issuer and audience. exp is
optional because jsonwebtoken only adds it when expiresIn is given. -/
structure JwtEnvelope where
  businessId : String
  stampsValue : Nat
  qrId : String
  type : String
  issuedAt : Nat
  expiresAt : Nat
  iat : Nat
  exp : Option Nat
  iss : String
  aud : String
deriving DecidableEq

/-- Symbolic HMAC: an idealised message-authentication code, modelled as
the pair of the key and the signed envelope, so that a signature verifies
under a key exactly for the envelope it was produced from. -/
def mac (key : String) (env : JwtEnvelope) : String × JwtEnvelope :=
  (key, env)

/-- A token string: either a structurally well formed signed envelope
carrying a signature, or an unparsable string. -/
inductive Token where
  | signed (env : JwtEnvelope) (sig : String × JwtEnvelope) : Token
  | malformed (raw : String) : Token
deriving DecidableEq

/-- Error classes raised by the jsonwebtoken library on verification.
TokenExpiredError is a subclass of JsonWebTokenError in the library;
verifyToken tests the more specific class first, which the two separate
constructors reflect. -/
inductive JwtError where
  | tokenExpiredError
  | jsonWebTokenError
deriving DecidableEq

/-- Model of jwt.verify: the signature is checked first; then, when an exp
claim is present, the token is rejected as expired once the clock in whole
seconds has reached exp (the library compares clockTimestamp against exp
with a greater-or-equal test). -/
def jwtVerify (secret : String) (tok : Token) (now : Nat) :
    Except JwtError JwtEnvelope :=
  match tok with
  | .malformed _ => .error .jsonWebTokenError
  | .signed env sig =>
    if sig = mac secret env then
      match env.exp with
      | some e =>
        if e ≤ now / 1000 then .error .tokenExpiredError else .ok env
      | none => .ok env
    else .error .jsonWebTokenError

/-- Model of jwt.decode: parses the structure without verifying the
signature, returning null on an unparsable string. -/
def jwtDecode (tok : Token) : Option JwtEnvelope :=
  match tok with
  | .malformed _ => none
  | .signed env _ => some env

/-- Observable failures of the auth utilities in src/utils/auth.ts: each
function catches internal errors and rethrows one fixed message. -/
inductive AuthError where
  | qrGenerationFailed
  | tokenExpired
  | invalidToken
  | verificationFailed
deriving DecidableEq

/-- generateQrToken from src/utils/auth.ts lines 115-147. The qrId
argument stands for the generateUniqueId output (a time prefix plus a
Math.random suffix: an internal nondeterministic input, not supplied by
the caller); the two Date.now readings inside the function are modelled
as the single instant now. The payload carries expiresAt = now + 30s in
milliseconds and is signed with expiresIn 30s, issuer go-out-loyalty and
audience qr-scan. When JWT_SECRET is unset the internal throw is caught
and resurfaces as the fixed generation-failure message. -/
def generateQrToken (penv : ProcessEnv) (businessId : String)
    (stampsValue : Nat) (now : Nat) (qrId : String) :
    Except AuthError Token :=
  match penv.jwtSecret with
  | none => .error .qrGenerationFailed
  | some secret =>
    let env : JwtEnvelope :=
      { businessId := businessId, stampsValue := stampsValue, qrId := qrId,
        type := "qr", issuedAt := now, expiresAt := now + 30 * 1000,
        iat := now / 1000, exp := some (now / 1000 + 30),
        iss := "go-out-loyalty", aud := "qr-scan" }
    .ok (.signed env (mac secret env))

/-- verifyToken from src/utils/auth.ts lines 154-173: a missing secret
throws a plain Error inside the try block, which matches neither library
error class and resurfaces as the generic verification failure; a library
TokenExpiredError resurfaces as the expired message and a
JsonWebTokenError as the invalid-token message. -/
def verifyToken (penv : ProcessEnv) (tok : Token) (now : Nat) :
    Except AuthError JwtEnvelope :=
  match penv.jwtSecret with
  | none => .error .verificationFailed
  | some secret =>
    match jwtVerify secret tok now with
    | .error .tokenExpiredError => .error .tokenExpired
    | .error .jsonWebTokenError => .error .invalidToken
    | .ok d => .ok d

/-- isTokenExpired from src/utils/auth.ts lines 221-231: decodes without
verification; a null decode or a missing or zero exp claim (both falsy in
the source) counts as expired; otherwise expired exactly when exp is
strictly below the clock in whole seconds. Total by construction,
mirroring the catch-all that returns true. -/
def isTokenExpired (tok : Token) (now : Nat) : Bool :=
  match jwtDecode tok with
  | none => true
  | some d =>
    match d.exp with
    | none => true
    | some e => if e = 0 then true else decide (e < now / 1000)

/-- qrGenerationValidation from src/utils/validation.ts lines 249-257:
the stampsValue body field is declared optional, so an absent field
passes the chain; a present field must be an integer between 1 and 10.
The input is the request body's stampsValue as an optional integer. -/
def qrGenerationValidation (stampsValue : Option Int) : Bool :=
  match stampsValue with
  | none => true
  | some v => decide (1 ≤ v) && decide (v ≤ 10)

/-- The envelope minted by generateQrToken for the given inputs at the
instant t, named for use in statements. -/
def qrEnv (b : String) (sv : Nat) (t : Nat) (qid : String) : JwtEnvelope :=
  { businessId := b, stampsValue := sv, qrId := qid,
    type := "qr", issuedAt := t, expiresAt := t + 30 * 1000,
    iat := t / 1000, exp := some (t / 1000 + 30),
    iss := "go-out-loyalty", aud := "qr-scan" }

/-- StampTransaction from the prisma schema: the persistent record of one
redemption, with a unique constraint on qrId (the specification calls this
a RedemptionRecord keyed by redemptionId). -/
structure StampTransaction where
  qrId : String
  businessId : String
  customerId : String
  stampsAwarded : Nat
  source : String
  createdAt : Nat
deriving DecidableEq

/-- Customer loyalty stats from the prisma schema: the fields mutated by a
successful redemption. -/
structure Customer where
  id : String
  totalStamps : Nat
  totalVisits : Nat
  lastVisit : Option Nat
deriving DecidableEq

/-- The slice of the persistent store the redemption ledger touches. -/
structure LedgerDB where
  stampTransactions : List StampTransaction
  customers : List Customer
deriving DecidableEq

/-- Typed failures of the redemption flow, from the specification's error
taxonomy. -/
inductive RedeemError where
  | expiredToken
  | invalidToken
  | invalidTokenType
  | alreadyRedeemed
  | persistenceError
deriving DecidableEq

/-- Modelled from the spec: the redemption flow handler (StampController)
is not among the provided sources, only its routes and the schema are.
Following section 4.3, redeem decodes the token via the codec and
propagates expiry and invalidity, re-checks the qr-scan audience, then
re-checks the embedded expiresAt against the clock, and finally runs one
atomic transaction that inserts the StampTransaction keyed by the token's
qrId and updates the customer's totalStamps, totalVisits and lastVisit.
The unique constraint on qrId makes an insert for an already consumed id
fail as AlreadyRedeemed; storeOk models the absence of any other
persistence failure inside the transaction. The state after the call is
returned alongside the result; every failing branch returns the input
state unchanged, which is the transaction-rollback guarantee. -/
def redeem (penv : ProcessEnv) (db : LedgerDB) (tok : Token)
    (customerId : String) (now : Nat) (storeOk : Bool) :
    Except RedeemError StampTransaction × LedgerDB :=
  match verifyToken penv tok now with
  | .error .tokenExpired => (.error .expiredToken, db)
  | .error _ => (.error .invalidToken, db)
  | .ok claims =>
    if claims.aud = "qr-scan" then
      if claims.expiresAt < now then (.error .expiredToken, db)
      else if db.stampTransactions.any (fun r => r.qrId == claims.qrId) then
        (.error .alreadyRedeemed, db)
      else if storeOk then
        let record : StampTransaction :=
          { qrId := claims.qrId, businessId := claims.businessId,
            customerId := customerId, stampsAwarded := claims.stampsValue,
            source := "qr_scan", createdAt := now }
        (.ok record,
          { stampTransactions := record :: db.stampTransactions,
            customers := db.customers.map (fun c =>
              if c.id == customerId then
                { c with totalStamps := c.totalStamps + claims.stampsValue,
                         totalVisits := c.totalVisits + 1,
                         lastVisit := some now }
              else c) })
      else (.error .persistenceError, db)
    else (.error .invalidTokenType, db)

/-- Status of an issued QR as reported to the issuing business. -/
inductive QrStatus where
  | pending
  | redeemed
  | expired
deriving DecidableEq

/-- Failure of the status query, from the specification. -/
inductive StatusError where
  | notAuthorized
deriving DecidableEq

/-- Modelled from the spec: the status handler (StampController
checkQrStatus) is not among the provided sources. Following section 4.4,
the query is redeemed when a StampTransaction with the queried qrId
exists and belongs to the querying business, fails as NotAuthorized when
the record belongs to another business, and otherwise consults the
short-lived issuance cache (pairs of qrId and issue time) to report
expired once the 30 second window of a known outstanding issuance has
passed, else pending. Read-only: no successor state is produced. -/
def checkStatus (db : LedgerDB) (issuedCache : List (String × Nat))
    (businessId qrId : String) (now : Nat) : Except StatusError QrStatus :=
  match db.stampTransactions.find? (fun r => r.qrId == qrId) with
  | some r =>
    if r.businessId == businessId then .ok .redeemed
    else .error .notAuthorized
  | none =>
    match issuedCache.find? (fun p => p.1 == qrId) with
    | some p => if p.2 + 30 * 1000 < now then .ok .expired else .ok .pending
    | none => .ok .pending

/-- Point lookup of a customer by id, as the store's unique-key lookup. -/
def findCustomer (db : LedgerDB) (cid : String) : Option Customer :=
  db.customers.find? (fun c => c.id == cid)

/-- Characterization of a successful mint: with a configured secret,
generateQrToken returns the qrEnv envelope signed under that secret. -/
theorem generateQrToken_eq (penv : ProcessEnv) (secret : String)
    (hsec : penv.jwtSecret = some secret) (b : String) (sv t : Nat)
    (qid : String) :
    generateQrToken penv b sv t qid =
      .ok (.signed (qrEnv b sv t qid) (mac secret (qrEnv b sv t qid))) := by
  unfold generateQrToken
  rw [hsec]
  rfl

/-- A freshly minted token verifies to its envelope while the clock in
whole seconds is below the envelope expiry. -/
theorem verifyToken_qrEnv_ok (penv : ProcessEnv) (secret : String)
    (hsec : penv.jwtSecret = some secret) (b : String) (sv t : Nat)
    (qid : String) (now : Nat) (hnow : now / 1000 < t / 1000 + 30) :
    verifyToken penv
        (.signed (qrEnv b sv t qid) (mac secret (qrEnv b sv t qid))) now
      = .ok (qrEnv b sv t qid) := by
  have h30 : ¬ (t / 1000 + 30 ≤ now / 1000) := by omega
  simp [verifyToken, hsec, jwtVerify, qrEnv, h30]

/-- A minted token is rejected as expired once the clock in whole seconds
reaches the envelope expiry. -/
theorem verifyToken_qrEnv_expired (penv : ProcessEnv) (secret : String)
    (hsec : penv.jwtSecret = some secret) (b : String) (sv t : Nat)
    (qid : String) (now : Nat) (hnow : t / 1000 + 30 ≤ now / 1000) :
    verifyToken penv
        (.signed (qrEnv b sv t qid) (mac secret (qrEnv b sv t qid))) now
      = .error .tokenExpired := by
  simp [verifyToken, hsec, jwtVerify, qrEnv, hnow]

/-- C2: issue-then-decode round trip. For every configured secret,
businessId and stampsValue in the range 1 to 10, minting a token at
instant t and decoding it at the same instant yields exactly the minted
claims: the businessId, stampsValue and redemption id qrId of the inputs,
issuedAt equal to t, and expiresAt exactly 30 seconds after issuedAt. -/
theorem issue_decode_roundtrip (penv : ProcessEnv) (secret b qid : String)
    (sv t : Nat) (tok : Token)
    (hsec : penv.jwtSecret = some secret) (hlo : 1 ≤ sv) (hhi : sv ≤ 10)
    (hiss : generateQrToken penv b sv t qid = .ok tok) :
    verifyToken penv tok t = .ok (qrEnv b sv t qid) ∧
    (qrEnv b sv t qid).businessId = b ∧
    (qrEnv b sv t qid).stampsValue = sv ∧
    (qrEnv b sv t qid).qrId = qid ∧
    (qrEnv b sv t qid).issuedAt = t ∧
    (qrEnv b sv t qid).expiresAt - (qrEnv b sv t qid).issuedAt = 30 * 1000 := by
  rw [generateQrToken_eq penv secret hsec b sv t qid] at hiss
  injection hiss with h
  subst h
  refine ⟨?_, rfl, rfl, rfl, rfl, ?_⟩
  · exact verifyToken_qrEnv_ok penv secret hsec b sv t qid t (by omega)
  · simp [qrEnv]

/-- Closed witness for the round trip at concrete inputs. -/
theorem issue_decode_roundtrip_witness :
    (⟨some "k"⟩ : ProcessEnv).jwtSecret = some "k" ∧ 1 ≤ 3 ∧ 3 ≤ 10 ∧
    verifyToken ⟨some "k"⟩
        (.signed (qrEnv "biz" 3 0 "q1") (mac "k" (qrEnv "biz" 3 0 "q1"))) 0
      = .ok (qrEnv "biz" 3 0 "q1") :=
  ⟨rfl, by omega, by omega,
    (issue_decode_roundtrip ⟨some "k"⟩ "k" "biz" "q1" 3 0
      (.signed (qrEnv "biz" 3 0 "q1") (mac "k" (qrEnv "biz" 3 0 "q1")))
      rfl (by omega) (by omega) rfl).1⟩

/-- C5: configuration fail-fast. When the process-wide signing secret is
absent, minting fails with the generation failure and verification fails
with the verification failure, for every input; neither operation returns
a token or claims. -/
theorem missing_secret_fail_fast (penv : ProcessEnv) (b qid : String)
    (sv now : Nat) (tok : Token) (hnone : penv.jwtSecret = none) :
    generateQrToken penv b sv now qid = .error .qrGenerationFailed ∧
    verifyToken penv tok now = .error .verificationFailed := by
  constructor <;> simp [generateQrToken, verifyToken, hnone]

/-- Closed witness for configuration fail-fast at concrete inputs. -/
theorem missing_secret_fail_fast_witness :
    (⟨none⟩ : ProcessEnv).jwtSecret = none ∧
    generateQrToken ⟨none⟩ "biz" 3 0 "q1" = .error .qrGenerationFailed ∧
    verifyToken ⟨none⟩ (.malformed "x") 0 = .error .verificationFailed :=
  ⟨rfl,
    (missing_secret_fail_fast ⟨none⟩ "biz" "q1" 3 0 (.malformed "x") rfl).1,
    (missing_secret_fail_fast ⟨none⟩ "biz" "q1" 3 0 (.malformed "x") rfl).2⟩

/-- C6: decode error taxonomy. Under a configured secret: a structurally
well formed token fails as expired exactly when its signature is valid
and it carries an exp claim that the clock in whole seconds has reached
(the library compares with greater-or-equal, so the boundary second
itself counts as expired); an unparsable string fails as invalid; a
token whose claims were altered while keeping the original signature
fails as invalid; and a successful decode returns exactly the claims the
signature was produced from, so no tampering yields altered claims. -/
theorem decode_error_taxonomy (penv : ProcessEnv) (secret : String)
    (env envAlt : JwtEnvelope) (sig : String × JwtEnvelope) (raw : String)
    (now : Nat) (hsec : penv.jwtSecret = some secret)
    (htamper : envAlt ≠ env) :
    (verifyToken penv (.signed env sig) now = .error .tokenExpired ↔
      sig = mac secret env ∧ ∃ e, env.exp = some e ∧ e ≤ now / 1000) ∧
    verifyToken penv (.malformed raw) now = .error .invalidToken ∧
    verifyToken penv (.signed envAlt (mac secret env)) now
      = .error .invalidToken ∧
    (∀ d, verifyToken penv (.signed env sig) now = .ok d →
      d = env ∧ sig = mac secret env) := by
  have hmac : ¬ (mac secret env = mac secret envAlt) := by
    simp only [mac, Prod.mk.injEq]
    intro h
    exact htamper h.2.symm
  refine ⟨⟨?_, ?_⟩, ?_, ?_, ?_⟩
  · intro h
    by_cases hs : sig = mac secret env
    · refine ⟨hs, ?_⟩
      cases hexp : env.exp with
      | none => simp [verifyToken, hsec, jwtVerify, hs, hexp] at h
      | some e =>
        by_cases he : e ≤ now / 1000
        · exact ⟨e, rfl, he⟩
        · simp [verifyToken, hsec, jwtVerify, hs, hexp, he] at h
    · simp [verifyToken, hsec, jwtVerify, hs] at h
  · rintro ⟨hs, e, hexp, he⟩
    simp [verifyToken, hsec, jwtVerify, hs, hexp, he]
  · simp [verifyToken, hsec, jwtVerify]
  · simp [verifyToken, hsec, jwtVerify, hmac]
  · intro d h
    by_cases hs : sig = mac secret env
    · refine ⟨?_, hs⟩
      cases hexp : env.exp with
      | none =>
        simp [verifyToken, hsec, jwtVerify, hs, hexp] at h
        exact h.symm
      | some e =>
        by_cases he : e ≤ now / 1000
        · simp [verifyToken, hsec, jwtVerify, hs, hexp, he] at h
        · simp [verifyToken, hsec, jwtVerify, hs, hexp, he] at h
          exact h.symm
    · simp [verifyToken, hsec, jwtVerify, hs] at h

/-- Closed witness for the decode taxonomy at concrete inputs: a
tampered envelope carrying the original signature is rejected as
invalid. -/
theorem decode_error_taxonomy_witness :
    (⟨some "k"⟩ : ProcessEnv).jwtSecret = some "k" ∧
    qrEnv "other" 3 0 "q1" ≠ qrEnv "biz" 3 0 "q1" ∧
    verifyToken ⟨some "k"⟩
        (.signed (qrEnv "other" 3 0 "q1") (mac "k" (qrEnv "biz" 3 0 "q1"))) 0
      = .error .invalidToken :=
  ⟨rfl, by simp [qrEnv],
    (decode_error_taxonomy ⟨some "k"⟩ "k" (qrEnv "biz" 3 0 "q1")
      (qrEnv "other" 3 0 "q1") (mac "k" (qrEnv "biz" 3 0 "q1")) "x" 0 rfl
      (by simp [qrEnv])).2.2.1⟩

/-- C7 counterexample: two mints with identical caller inputs (businessId
biz, stampsValue 3) under the same secret and even at the same instant
produce different tokens, because the internally generated unique id
(Math.random based) differs between the calls; the output is therefore
not a function of the input and the process-wide secret alone. -/
theorem encode_purity_counterexample :
    generateQrToken ⟨some "k"⟩ "biz" 3 0 "id1" ≠
      generateQrToken ⟨some "k"⟩ "biz" 3 0 "id2" := by
  intro h
  simp [generateQrToken, mac] at h

/-- C7 amended: encode is effect-free and deterministic over its caller
inputs together with the clock reading and the internally generated
unique id, and depends on the process environment only through the
signing secret: two environments agreeing on the secret give identical
tokens for identical remaining inputs. -/
theorem encode_determined_by_secret (p q : ProcessEnv) (b qid : String)
    (sv now : Nat) (h : p.jwtSecret = q.jwtSecret) :
    generateQrToken p b sv now qid = generateQrToken q b sv now qid := by
  unfold generateQrToken
  rw [h]

/-- Closed witness for secret-determined encoding at concrete inputs. -/
theorem encode_determined_by_secret_witness :
    (⟨some "k"⟩ : ProcessEnv).jwtSecret = (⟨some "k"⟩ : ProcessEnv).jwtSecret ∧
    generateQrToken ⟨some "k"⟩ "biz" 3 0 "q1"
      = generateQrToken ⟨some "k"⟩ "biz" 3 0 "q1" :=
  ⟨rfl, encode_determined_by_secret ⟨some "k"⟩ ⟨some "k"⟩ "biz" "q1" 3 0 rfl⟩

/-- C8 counterexample: a request body with no stampsValue field passes
the QR-generation validation chain, because the field is declared
optional; the claim that an absent stampsValue is rejected fails. -/
theorem stamps_value_absent_accepted :
    qrGenerationValidation none = true := rfl

/-- C8 amended: the validation chain accepts a present stampsValue
exactly when it is an integer between 1 and 10 inclusive (an out-of-range
present value is rejected before any token is minted), while an absent
stampsValue passes the chain. -/
theorem stamps_value_validation (v : Int) :
    (qrGenerationValidation (some v) = true ↔ 1 ≤ v ∧ v ≤ 10) ∧
    qrGenerationValidation none = true := by
  constructor
  · simp [qrGenerationValidation]
  · rfl

/-- C10: isTokenExpired is total (it returns a boolean on every token,
mirroring the catch-all in the source) and reports expired exactly when
the input does not decode to a payload carrying a truthy exp claim (a
missing payload, a missing exp, or the falsy value zero), or the carried
exp is strictly below the clock in whole seconds. -/
theorem isTokenExpired_characterization (tok : Token) (now : Nat) :
    isTokenExpired tok now = true ↔
      (¬ ∃ d e, jwtDecode tok = some d ∧ d.exp = some e ∧ e ≠ 0) ∨
      (∃ d e, jwtDecode tok = some d ∧ d.exp = some e ∧ e < now / 1000) := by
  cases tok with
  | malformed raw => simp [isTokenExpired, jwtDecode]
  | signed env sig =>
    cases hexp : env.exp with
    | none => simp [isTokenExpired, jwtDecode, hexp]
    | some e =>
      by_cases he : e = 0
      · subst he
        simp [isTokenExpired, jwtDecode, hexp]
      · simp [isTokenExpired, jwtDecode, hexp, he]

/-- Finding a customer after the balance update of a redemption: the
update maps every customer through an id-preserving function, so the
point lookup commutes with the update. -/
theorem findCustomer_map_update (l : List Customer) (cid : String)
    (f : Customer → Customer) (hf : ∀ x, (f x).id = x.id) :
    (l.map (fun x => if x.id == cid then f x else x)).find?
        (fun y => y.id == cid)
      = (l.find? (fun x => x.id == cid)).map
          (fun x => if x.id == cid then f x else x) := by
  rw [List.find?_map]
  have hp : ((fun y : Customer => y.id == cid) ∘
      (fun x => if x.id == cid then f x else x))
        = fun x : Customer => x.id == cid := by
    funext x
    by_cases h : x.id == cid
    · simp [Function.comp, h, hf]
    · simp [Function.comp, h]
  rw [hp]

/-- C1: at-most-once redemption. For a freshly issued token whose
redemption id is not yet in the ledger, the first redeem within the
validity window succeeds and creates the StampTransaction keyed by that
id, the redeeming customer's totalStamps is incremented by exactly
stampsValue (with totalVisits and lastVisit updated alongside), and a
second redeem of the same token within the window fails as
AlreadyRedeemed leaving the state unchanged, so the balance reflects
exactly one increment. -/
theorem at_most_once_redemption (penv : ProcessEnv)
    (secret b qid cid : String) (sv t now₁ now₂ : Nat) (tok : Token)
    (db : LedgerDB) (c : Customer) (storeOk₂ : Bool)
    (hsec : penv.jwtSecret = some secret)
    (hiss : generateQrToken penv b sv t qid = .ok tok)
    (hfresh : db.stampTransactions.any (fun r => r.qrId == qid) = false)
    (hc : findCustomer db cid = some c)
    (h1e : now₁ / 1000 < t / 1000 + 30) (h1m : now₁ ≤ t + 30 * 1000)
    (h2e : now₂ / 1000 < t / 1000 + 30) (h2m : now₂ ≤ t + 30 * 1000) :
    (redeem penv db tok cid now₁ true).1 =
        .ok { qrId := qid, businessId := b, customerId := cid,
              stampsAwarded := sv, source := "qr_scan",
              createdAt := now₁ } ∧
    findCustomer (redeem penv db tok cid now₁ true).2 cid =
        some { c with totalStamps := c.totalStamps + sv,
                      totalVisits := c.totalVisits + 1,
                      lastVisit := some now₁ } ∧
    redeem penv (redeem penv db tok cid now₁ true).2 tok cid now₂ storeOk₂ =
        (.error .alreadyRedeemed, (redeem penv db tok cid now₁ true).2) := by
  rw [generateQrToken_eq penv secret hsec b sv t qid] at hiss
  injection hiss with h
  subst h
  have hv₁ := verifyToken_qrEnv_ok penv secret hsec b sv t qid now₁ h1e
  have hv₂ := verifyToken_qrEnv_ok penv secret hsec b sv t qid now₂ h2e
  have hnot1 : ¬ ((qrEnv b sv t qid).expiresAt < now₁) := by
    simp only [qrEnv]
    omega
  have hnot2 : ¬ ((qrEnv b sv t qid).expiresAt < now₂) := by
    simp only [qrEnv]
    omega
  have hfr : (db.stampTransactions.any
      (fun r => r.qrId == (qrEnv b sv t qid).qrId)) = false := hfresh
  have hred : redeem penv db
      (.signed (qrEnv b sv t qid) (mac secret (qrEnv b sv t qid)))
      cid now₁ true =
      (.ok { qrId := qid, businessId := b, customerId := cid,
             stampsAwarded := sv, source := "qr_scan", createdAt := now₁ },
       { stampTransactions :=
           { qrId := qid, businessId := b, customerId := cid,
             stampsAwarded := sv, source := "qr_scan", createdAt := now₁ }
             :: db.stampTransactions,
         customers := db.customers.map (fun x =>
           if x.id == cid then
             { x with totalStamps := x.totalStamps + sv,
                      totalVisits := x.totalVisits + 1,
                      lastVisit := some now₁ }
           else x) }) := by
    simp only [redeem, hv₁]
    rw [if_pos (show (qrEnv b sv t qid).aud = "qr-scan" from rfl)]
    rw [if_neg hnot1]
    rw [hfr]
    rw [if_neg Bool.false_ne_true]
    simp [qrEnv]
  have hc' : db.customers.find? (fun x => x.id == cid) = some c := hc
  have hcid : (c.id == cid) = true := by
    have h2 := @List.find?_some Customer (fun x => x.id == cid) c
      db.customers hc'
    exact h2
  refine ⟨?_, ?_, ?_⟩
  · rw [hred]
  · rw [hred]
    show (db.customers.map (fun x =>
        if x.id == cid then
          { x with totalStamps := x.totalStamps + sv,
                   totalVisits := x.totalVisits + 1,
                   lastVisit := some now₁ }
        else x)).find? (fun y => y.id == cid)
      = some { c with totalStamps := c.totalStamps + sv,
                      totalVisits := c.totalVisits + 1,
                      lastVisit := some now₁ }
    rw [findCustomer_map_update db.customers cid
      (fun x => { x with totalStamps := x.totalStamps + sv,
                         totalVisits := x.totalVisits + 1,
                         lastVisit := some now₁ }) (fun x => rfl)]
    rw [hc']
    simp only [Option.map_some']
    rw [if_pos hcid]
  · rw [hred]
    simp only [redeem, hv₂]
    rw [if_pos (show (qrEnv b sv t qid).aud = "qr-scan" from rfl)]
    rw [if_neg hnot2]
    simp [qrEnv]

/-- Closed witness for at-most-once redemption at concrete inputs. -/
theorem at_most_once_redemption_witness :
    generateQrToken ⟨some "k"⟩ "biz" 3 0 "q1" =
      .ok (.signed (qrEnv "biz" 3 0 "q1") (mac "k" (qrEnv "biz" 3 0 "q1"))) ∧
    (redeem ⟨some "k"⟩
        ⟨[], [⟨"cust", 0, 0, none⟩]⟩
        (.signed (qrEnv "biz" 3 0 "q1") (mac "k" (qrEnv "biz" 3 0 "q1")))
        "cust" 0 true).1 =
      .ok ⟨"q1", "biz", "cust", 3, "qr_scan", 0⟩ ∧
    redeem ⟨some "k"⟩
        (redeem ⟨some "k"⟩ ⟨[], [⟨"cust", 0, 0, none⟩]⟩
          (.signed (qrEnv "biz" 3 0 "q1") (mac "k" (qrEnv "biz" 3 0 "q1")))
          "cust" 0 true).2
        (.signed (qrEnv "biz" 3 0 "q1") (mac "k" (qrEnv "biz" 3 0 "q1")))
        "cust" 0 true =
      (.error .alreadyRedeemed,
        (redeem ⟨some "k"⟩ ⟨[], [⟨"cust", 0, 0, none⟩]⟩
          (.signed (qrEnv "biz" 3 0 "q1") (mac "k" (qrEnv "biz" 3 0 "q1")))
          "cust" 0 true).2) := by
  have h := at_most_once_redemption ⟨some "k"⟩ "k" "biz" "q1" "cust" 3 0 0 0
    (.signed (qrEnv "biz" 3 0 "q1") (mac "k" (qrEnv "biz" 3 0 "q1")))
    ⟨[], [⟨"cust", 0, 0, none⟩]⟩ ⟨"cust", 0, 0, none⟩ true
    rfl rfl rfl rfl (by omega) (by omega) (by omega) (by omega)
  exact ⟨rfl, h.1, h.2.2⟩

/-- C3: expiry dominates replay. Once 31 seconds have passed since the
issue instant, redeeming the token fails as ExpiredToken for every ledger
state, in particular also when the ledger already contains its redemption
id: the codec's envelope-expiry check runs before the ledger's uniqueness
check is ever reached. -/
theorem expiry_dominates_replay (penv : ProcessEnv)
    (secret b qid cid : String) (sv t now : Nat) (tok : Token)
    (db : LedgerDB) (storeOk : Bool)
    (hsec : penv.jwtSecret = some secret)
    (hiss : generateQrToken penv b sv t qid = .ok tok)
    (hlate : t + 31 * 1000 ≤ now) :
    redeem penv db tok cid now storeOk = (.error .expiredToken, db) := by
  rw [generateQrToken_eq penv secret hsec b sv t qid] at hiss
  injection hiss with h
  subst h
  have hv := verifyToken_qrEnv_expired penv secret hsec b sv t qid now
    (by omega)
  simp [redeem, hv]

/-- Closed witness for expiry dominating replay: the ledger already holds
the token's redemption id and the late redeem still reports expiry. -/
theorem expiry_dominates_replay_witness :
    generateQrToken ⟨some "k"⟩ "biz" 3 0 "q1" =
      .ok (.signed (qrEnv "biz" 3 0 "q1") (mac "k" (qrEnv "biz" 3 0 "q1"))) ∧
    0 + 31 * 1000 ≤ 31000 ∧
    redeem ⟨some "k"⟩ ⟨[⟨"q1", "biz", "cust", 3, "qr_scan", 0⟩], []⟩
        (.signed (qrEnv "biz" 3 0 "q1") (mac "k" (qrEnv "biz" 3 0 "q1")))
        "cust" 31000 true =
      (.error .expiredToken, ⟨[⟨"q1", "biz", "cust", 3, "qr_scan", 0⟩], []⟩) :=
  ⟨rfl, by omega,
    expiry_dominates_replay ⟨some "k"⟩ "k" "biz" "q1" "cust" 3 0 31000
      (.signed (qrEnv "biz" 3 0 "q1") (mac "k" (qrEnv "biz" 3 0 "q1")))
      ⟨[⟨"q1", "biz", "cust", 3, "qr_scan", 0⟩], []⟩ true rfl rfl (by omega)⟩

/-- The redemption flow only changes the ledger state on a successful
result: every failing branch hands back the input state. -/
theorem redeem_state_change_only_on_ok (penv : ProcessEnv) (db : LedgerDB)
    (tok : Token) (cid : String) (now : Nat) (storeOk : Bool) :
    (redeem penv db tok cid now storeOk).2 = db ∨
    ∃ r, (redeem penv db tok cid now storeOk).1 = .ok r := by
  unfold redeem
  cases hv : verifyToken penv tok now with
  | error err => cases err <;> simp
  | ok claims =>
    by_cases ha : claims.aud = "qr-scan"
    · simp only [ha, if_true]
      split_ifs <;> simp
    · simp [ha]

/-- C4: redemption atomicity. Every redeem call that fails, in particular
one failing with PersistenceError, leaves the ledger state exactly as it
was: no StampTransaction is created and the customer's totalStamps,
totalVisits and lastVisit are unchanged, the transaction-rollback
guarantee. -/
theorem redeem_persistence_rollback (penv : ProcessEnv) (db : LedgerDB)
    (tok : Token) (cid : String) (now : Nat) (storeOk : Bool)
    (e : RedeemError)
    (hfail : (redeem penv db tok cid now storeOk).1 = .error e) :
    (redeem penv db tok cid now storeOk).2 = db := by
  rcases redeem_state_change_only_on_ok penv db tok cid now storeOk with
    h | ⟨r, hr⟩
  · exact h
  · rw [hfail] at hr
    simp at hr

/-- Closed witness for rollback: a persistence failure on an otherwise
valid redemption leaves the state untouched. -/
theorem redeem_persistence_rollback_witness :
    (redeem ⟨some "k"⟩ ⟨[], [⟨"cust", 0, 0, none⟩]⟩
        (.signed (qrEnv "biz" 3 0 "q1") (mac "k" (qrEnv "biz" 3 0 "q1")))
        "cust" 0 false).1 = .error .persistenceError ∧
    (redeem ⟨some "k"⟩ ⟨[], [⟨"cust", 0, 0, none⟩]⟩
        (.signed (qrEnv "biz" 3 0 "q1") (mac "k" (qrEnv "biz" 3 0 "q1")))
        "cust" 0 false).2 = ⟨[], [⟨"cust", 0, 0, none⟩]⟩ :=
  ⟨rfl,
    redeem_persistence_rollback ⟨some "k"⟩ ⟨[], [⟨"cust", 0, 0, none⟩]⟩
      (.signed (qrEnv "biz" 3 0 "q1") (mac "k" (qrEnv "biz" 3 0 "q1")))
      "cust" 0 false .persistenceError rfl⟩

/-- In a ledger whose redemption ids are pairwise distinct, the point
lookup by redemption id finds exactly the member carrying that id. -/
theorem find_unique_qrId (l : List StampTransaction) (rid : String)
    (r : StampTransaction)
    (huniq : l.Pairwise (fun a b => a.qrId ≠ b.qrId))
    (hmem : r ∈ l) (hr : r.qrId = rid) :
    l.find? (fun x => x.qrId == rid) = some r := by
  induction l with
  | nil => cases hmem
  | cons a tl ih =>
    rw [List.pairwise_cons] at huniq
    rcases List.mem_cons.mp hmem with h | h
    · subst h
      exact List.find?_cons_of_pos _ (by simp [hr])
    · have hne : a.qrId ≠ rid :=
        fun hcontra => huniq.1 r h (hcontra.trans hr.symm)
      rw [List.find?_cons_of_neg _ (by simp [hne])]
      exact ih huniq.2 h

/-- C9: status query correctness. In a ledger whose redemption ids are
pairwise distinct (the unique constraint), checkStatus reports redeemed
exactly when a StampTransaction with the queried id exists and belongs to
the querying business, and a query from a business that does not own the
record fails as NotAuthorized. The query is read-only by construction: it
produces no successor state. -/
theorem check_status_correct (db : LedgerDB) (cache : List (String × Nat))
    (bid rid : String) (now : Nat)
    (huniq : db.stampTransactions.Pairwise (fun a b => a.qrId ≠ b.qrId)) :
    (checkStatus db cache bid rid now = .ok .redeemed ↔
      ∃ r ∈ db.stampTransactions, r.qrId = rid ∧ r.businessId = bid) ∧
    ∀ r ∈ db.stampTransactions, r.qrId = rid → r.businessId ≠ bid →
      checkStatus db cache bid rid now = .error .notAuthorized := by
  constructor
  · constructor
    · intro h
      unfold checkStatus at h
      split at h
      · rename_i r heq
        split at h
        · rename_i hb
          have hrid : r.qrId = rid := by
            have h2 := @List.find?_some StampTransaction
              (fun x => x.qrId == rid) r db.stampTransactions heq
            simpa using h2
          exact ⟨r, List.mem_of_find?_eq_some heq, hrid, by simpa using hb⟩
        · simp at h
      · split at h
        · split at h <;> simp at h
        · simp at h
    · rintro ⟨r, hmem, hrid, hbid⟩
      unfold checkStatus
      rw [find_unique_qrId db.stampTransactions rid r huniq hmem hrid]
      simp [hbid]
  · intro r hmem hrid hbid
    unfold checkStatus
    rw [find_unique_qrId db.stampTransactions rid r huniq hmem hrid]
    simp [hbid]

/-- Closed witness for status-query correctness: a ledger holding one
redemption reports it as redeemed to its owning business. -/
theorem check_status_correct_witness :
    ([(⟨"q1", "biz", "cust", 3, "qr_scan", 0⟩ : StampTransaction)].Pairwise
      (fun a b => a.qrId ≠ b.qrId)) ∧
    checkStatus ⟨[⟨"q1", "biz", "cust", 3, "qr_scan", 0⟩], []⟩ [] "biz" "q1" 0
      = .ok .redeemed :=
  ⟨by simp,
    (check_status_correct ⟨[⟨"q1", "biz", "cust", 3, "qr_scan", 0⟩], []⟩ []
        "biz" "q1" 0 (by simp)).1.mpr
      ⟨⟨"q1", "biz", "cust", 3, "qr_scan", 0⟩, by simp, rfl, rfl⟩⟩

end GoOut
